import Mathlib

/-
Verification development for the fastpubsub message-flow engine.

The engine's data-plane operations live in PostgreSQL stored procedures
(migrations/versions/001_3aacd9174d1f_bootstrap.py); the Python service layer
(fastpubsub/services/messages.py) invokes them, the HTTP routers
(fastpubsub/api/routers/topics.py) add the topic-existence check, and
subscription creation sanitizes filters (fastpubsub/sanitizer.py,
fastpubsub/models.py).  This file embeds those operations shallowly:

  * `Json` models jsonb values; `jsonFieldText`, `jsonArrayElementsText` and
    `sqlEqAnyText` model the text extraction operators (`->>`,
    `jsonb_array_elements_text`) and SQL's three-valued `= ANY`, with `none`
    standing for SQL NULL;
  * `DbState` models the three tables; each stored procedure becomes a pure
    function on `DbState`, with `now` passed explicitly for `now()` and
    sequential `Nat` ids standing in for generated UUIDs;
  * row sets produced by `ORDER BY` are realised with an insertion sort
    (`sortLe`); SQL leaves the order of ties unspecified, so any total
    refinement is a faithful implementation;
  * the sanitizer (`sanitize_string`, `sanitize_filter`) is translated
    character by character from fastpubsub/sanitizer.py.
-/

namespace FastPubSub

/-- A jsonb value (migration 001 stores `payload JSONB`, `filter JSONB`). -/
inductive Json where
  | null
  | bool (b : Bool)
  | num (n : Int)
  | str (s : String)
  | arr (xs : List Json)
  | obj (kvs : List (String × Json))
deriving Repr

/-- Decidable equality for `Json`, written by hand because the automatic
deriving does not handle the nested `List` occurrences. -/
def Json.decEq : (a b : Json) → Decidable (a = b)
  | .null, .null => isTrue rfl
  | .bool a, .bool b =>
    if h : a = b then isTrue (by rw [h]) else isFalse (by intro hc; cases hc; exact h rfl)
  | .num a, .num b =>
    if h : a = b then isTrue (by rw [h]) else isFalse (by intro hc; cases hc; exact h rfl)
  | .str a, .str b =>
    if h : a = b then isTrue (by rw [h]) else isFalse (by intro hc; cases hc; exact h rfl)
  | .arr xs, .arr ys =>
    match goArr xs ys with
    | isTrue h => isTrue (by rw [h])
    | isFalse h => isFalse (by intro hc; cases hc; exact h rfl)
  | .obj xs, .obj ys =>
    match goObj xs ys with
    | isTrue h => isTrue (by rw [h])
    | isFalse h => isFalse (by intro hc; cases hc; exact h rfl)
  | .null, .bool _ => isFalse (by intro h; cases h)
  | .null, .num _ => isFalse (by intro h; cases h)
  | .null, .str _ => isFalse (by intro h; cases h)
  | .null, .arr _ => isFalse (by intro h; cases h)
  | .null, .obj _ => isFalse (by intro h; cases h)
  | .bool _, .null => isFalse (by intro h; cases h)
  | .bool _, .num _ => isFalse (by intro h; cases h)
  | .bool _, .str _ => isFalse (by intro h; cases h)
  | .bool _, .arr _ => isFalse (by intro h; cases h)
  | .bool _, .obj _ => isFalse (by intro h; cases h)
  | .num _, .null => isFalse (by intro h; cases h)
  | .num _, .bool _ => isFalse (by intro h; cases h)
  | .num _, .str _ => isFalse (by intro h; cases h)
  | .num _, .arr _ => isFalse (by intro h; cases h)
  | .num _, .obj _ => isFalse (by intro h; cases h)
  | .str _, .null => isFalse (by intro h; cases h)
  | .str _, .bool _ => isFalse (by intro h; cases h)
  | .str _, .num _ => isFalse (by intro h; cases h)
  | .str _, .arr _ => isFalse (by intro h; cases h)
  | .str _, .obj _ => isFalse (by intro h; cases h)
  | .arr _, .null => isFalse (by intro h; cases h)
  | .arr _, .bool _ => isFalse (by intro h; cases h)
  | .arr _, .num _ => isFalse (by intro h; cases h)
  | .arr _, .str _ => isFalse (by intro h; cases h)
  | .arr _, .obj _ => isFalse (by intro h; cases h)
  | .obj _, .null => isFalse (by intro h; cases h)
  | .obj _, .bool _ => isFalse (by intro h; cases h)
  | .obj _, .num _ => isFalse (by intro h; cases h)
  | .obj _, .str _ => isFalse (by intro h; cases h)
  | .obj _, .arr _ => isFalse (by intro h; cases h)
where
  goArr : (xs ys : List Json) → Decidable (xs = ys)
    | [], [] => isTrue rfl
    | x :: xs, y :: ys =>
      match x.decEq y, goArr xs ys with
      | isTrue h1, isTrue h2 => isTrue (by rw [h1, h2])
      | isFalse h1, _ => isFalse (by intro hc; cases hc; exact h1 rfl)
      | _, isFalse h2 => isFalse (by intro hc; cases hc; exact h2 rfl)
    | [], _ :: _ => isFalse (by intro h; cases h)
    | _ :: _, [] => isFalse (by intro h; cases h)
  goObj : (xs ys : List (String × Json)) → Decidable (xs = ys)
    | [], [] => isTrue rfl
    | x :: xs, y :: ys =>
      match x.2.decEq y.2, goObj xs ys with
      | isTrue h1, isTrue h2 =>
        if h3 : x.1 = y.1 then isTrue (by rw [h2]; congr 1; exact Prod.ext h3 h1)
        else isFalse (by intro hc; cases hc; exact h3 rfl)
      | isFalse h1, _ => isFalse (by intro hc; cases hc; exact h1 rfl)
      | _, isFalse h2 => isFalse (by intro hc; cases hc; exact h2 rfl)
    | [], _ :: _ => isFalse (by intro h; cases h)
    | _ :: _, [] => isFalse (by intro h; cases h)

instance : DecidableEq Json := Json.decEq

/-- Tests `jsonb_typeof(v) = 'object'`. -/
def isJsonObject : Json → Bool
  | .obj _ => true
  | _ => false

/-- Tests `jsonb_typeof(v) = 'array'`. -/
def isJsonArray : Json → Bool
  | .arr _ => true
  | _ => false

/-- Textual rendering of a jsonb value, as PostgreSQL prints it when a
container is extracted as text (string escaping inside the rendering is not
modelled; no claim depends on it). -/
def renderJson : Json → String
  | .null => "null"
  | .bool b => cond b "true" "false"
  | .num n => toString n
  | .str s => "\"" ++ s ++ "\""
  | .arr xs => "[" ++ renderArr xs ++ "]"
  | .obj kvs => "\x7b" ++ renderObj kvs ++ "\x7d"
where
  renderArr : List Json → String
    | [] => ""
    | [x] => renderJson x
    | x :: y :: xs => renderJson x ++ ", " ++ renderArr (y :: xs)
  renderObj : List (String × Json) → String
    | [] => ""
    | [kv] => "\"" ++ kv.1 ++ "\": " ++ renderJson kv.2
    | kv :: kv2 :: kvs => "\"" ++ kv.1 ++ "\": " ++ renderJson kv.2 ++ ", " ++ renderObj (kv2 :: kvs)

/-- The text form of a jsonb value as produced by `->>` on a field value or by
`jsonb_array_elements_text` on an array element; JSON `null` becomes SQL NULL
(`none`). -/
def jsonText : Json → Option String
  | .null => none
  | .bool b => some (cond b "true" "false")
  | .num n => some (toString n)
  | .str s => some s
  | v => some (renderJson v)

/-- Extraction `payload ->> key`: SQL NULL when the payload is not an object, the key is
absent, or the field value is JSON `null`. -/
def jsonFieldText (payload : Json) (key : String) : Option String :=
  match payload with
  | .obj kvs =>
    match kvs.find? (fun kv => kv.1 == key) with
    | some kv => jsonText kv.2
    | none => none
  | _ => none

/-- Models `SELECT jsonb_array_elements_text(v)` for an array value. -/
def jsonArrayElementsText : Json → List (Option String)
  | .arr xs => xs.map jsonText
  | _ => []

/-- SQL's three-valued `x = ANY (elements)`: TRUE when some non-NULL element
equals the non-NULL `x`; NULL (`none`) when there is no such element but some
comparison involves a NULL; FALSE otherwise (in particular over an empty
list). -/
def sqlEqAnyText (x : Option String) (es : List (Option String)) : Option Bool :=
  if es.any (fun e =>
      match x, e with
      | some a, some b => a == b
      | _, _ => false) then
    some true
  else if es.any (fun e => x.isNone || e.isNone) then none
  else some false

/-- One branch of the `EXISTS` subquery in `publish_messages`: the filter entry
`(key, allowedValues)` is kept by the `WHERE` clause iff `jsonb_typeof` of the
value is `'array'` and `NOT (payload ->> key = ANY (...))` evaluates to TRUE
(a NULL comparison does not keep the row). -/
def keyViolation (payload : Json) (key : String) (allowedValues : Json) : Bool :=
  isJsonArray allowedValues &&
    decide (sqlEqAnyText (jsonFieldText payload key) (jsonArrayElementsText allowedValues)
      = some false)

/-- The filter acceptance test of `publish_messages`: accept when the filter is
not a jsonb object or is the empty object, otherwise accept iff no filter
entry is a violated array constraint (`NOT EXISTS (...)`).  The column is
`NOT NULL`, so the SQL `s.filter IS NULL` branch cannot fire. -/
def matchesFilter (filter : Json) (payload : Json) : Bool :=
  match filter with
  | .obj [] => true
  | .obj kvs => !(kvs.any (fun kv => keyViolation payload kv.1 kv.2))
  | _ => true

/-! ### Sanitizer (fastpubsub/sanitizer.py) -/

/-- The character class removed by `sanitize_string`'s regular expression
`[\x00-\x08\x0B\x0C\x0E-\x1F\x7F]`. -/
def isRemovedControlChar (c : Char) : Bool :=
  (c.toNat ≤ 0x08) || (c.toNat == 0x0B) || (c.toNat == 0x0C) ||
    (0x0E ≤ c.toNat && c.toNat ≤ 0x1F) || (c.toNat == 0x7F)

/-- Models `re.sub` removal of the control-character class from the value. -/
def removeControlChars (s : String) : String :=
  String.mk (s.toList.filter (fun c => !(isRemovedControlChar c)))

/-- The per-character replacement performed by Python's
`html.escape(value, quote=True)`. -/
def htmlEscapeChar (c : Char) : List Char :=
  if c = '&' then "&amp;".toList
  else if c = '<' then "&lt;".toList
  else if c = '>' then "&gt;".toList
  else if c = Char.ofNat 34 then "&quot;".toList
  else if c = Char.ofNat 39 then "&#x27;".toList
  else [c]

/-- Models `html.escape(value, quote=True)`.  Python performs the `&` replacement
first, so the sequential replacements coincide with this per-character map. -/
def htmlEscape (s : String) : String :=
  String.mk (s.toList.flatMap htmlEscapeChar)

/-- Function `sanitize_string`: strip the control characters, then HTML-entity encode. -/
def sanitize_string (s : String) : String :=
  htmlEscape (removeControlChars s)

/-- One entry of `sanitize_filter`'s output dictionary: the key is sanitized,
string elements of the (already validated) array value are sanitized, numbers
and booleans pass through. -/
def sanitizeFilterEntry (kv : String × Json) : String × Json :=
  ( sanitize_string kv.1,
    match kv.2 with
    | .arr vs =>
      Json.arr (vs.map (fun v =>
        match v with
        | .str s => Json.str (sanitize_string s)
        | other => other))
    | other => other )

/-- Function `sanitize_filter` on a structurally valid filter (`None`/`{}` are returned
unchanged; an invalid structure raises before this point and is not modelled
here). -/
def sanitize_filter : Json → Json
  | .obj kvs => .obj (kvs.map sanitizeFilterEntry)
  | other => other

/-! ### Data model (tables of migration 001) -/

/-- Message lifecycle states (`status TEXT` of `subscription_messages`). -/
inductive MsgStatus where
  | available
  | delivered
  | acked
  | dlq
deriving DecidableEq, Repr

/-- A row of `subscriptions`. -/
structure SubscriptionRec where
  id : String
  topicId : String
  filter : Json
  maxDeliveryAttempts : Nat
  backoffMinSeconds : Nat
  backoffMaxSeconds : Nat
deriving DecidableEq, Repr

/-- A row of `subscription_messages`; timestamps are integer seconds and the
generated UUID primary key is modelled by a sequential `Nat`. -/
structure MessageRow where
  id : Nat
  subscriptionId : String
  payload : Json
  status : MsgStatus
  deliveryAttempts : Nat
  availableAt : Int
  lockedAt : Option Int
  lockedBy : Option String
  createdAt : Int
  ackedAt : Option Int
deriving DecidableEq, Repr

/-- The database state: the `topics`, `subscriptions` and
`subscription_messages` tables, plus the id generator for new message rows. -/
structure DbState where
  topics : List String
  subs : List SubscriptionRec
  msgs : List MessageRow
  nextId : Nat
deriving DecidableEq, Repr

/-- Models `SELECT * FROM subscriptions WHERE id = sid`. -/
def findSub (st : DbState) (sid : String) : Option SubscriptionRec :=
  st.subs.find? (fun s => s.id == sid)

/-- Insertion into a list sorted by `le`; SQL's `ORDER BY` leaves ties in an
arbitrary order, so this deterministic refinement is faithful. -/
def insertLe (le : MessageRow → MessageRow → Bool) (m : MessageRow) :
    List MessageRow → List MessageRow
  | [] => [m]
  | x :: xs => if le m x then m :: x :: xs else x :: insertLe le m xs

/-- Insertion sort by `le`. -/
def sortLe (le : MessageRow → MessageRow → Bool) : List MessageRow → List MessageRow
  | [] => []
  | x :: xs => insertLe le x (sortLe le xs)

/-! ### Stored procedures (migration 001) -/

/-- A freshly inserted message row: `status` defaults to `'available'`,
`delivery_attempts` to 0, `available_at`/`created_at` to `now()`, the lock and
ack columns to NULL. -/
def newMessageRow (now : Int) (idv : Nat) (p : String × Json) : MessageRow :=
  { id := idv, subscriptionId := p.1, payload := p.2, status := .available,
    deliveryAttempts := 0, availableAt := now, lockedAt := none, lockedBy := none,
    createdAt := now, ackedAt := none }

/-- The rows inserted for the eligible (subscription, payload) pairs, with
sequential ids starting at `startId`. -/
def publishRows (startId : Nat) (now : Int) : List (String × Json) → List MessageRow
  | [] => []
  | p :: ps => newMessageRow now startId p :: publishRows (startId + 1) now ps

/-- The `eligible` CTE of `publish_messages`: join the subscriptions of the
topic with the well-formed (object) input messages and keep the matching
pairs. -/
def eligiblePairs (st : DbState) (topicId : String) (messages : List Json) :
    List (String × Json) :=
  ((st.subs.filter (fun s => s.topicId == topicId)).map (fun s =>
    ((messages.filter isJsonObject).filter (fun m => matchesFilter s.filter m)).map
      (fun m => (s.id, m)))).flatten

/-- Procedure `publish_messages(p_topic_id, p_messages)`: insert one `'available'` row
per eligible pair and return the insert count (`GET DIAGNOSTICS ROW_COUNT`). -/
def publish_messages (st : DbState) (topicId : String) (messages : List Json)
    (now : Int) : DbState × Nat :=
  let rows := publishRows st.nextId now (eligiblePairs st topicId messages)
  ({ st with msgs := st.msgs ++ rows, nextId := st.nextId + rows.length }, rows.length)

/-- The `cte` of `consume_messages`: the first `batchSize` rows of the
subscription with `status = 'available' AND available_at <= now()`, ordered by
`available_at`. -/
def consumeSelect (st : DbState) (subscriptionId : String) (now : Int)
    (batchSize : Nat) : List MessageRow :=
  (sortLe (fun a b => a.availableAt ≤ b.availableAt)
    (st.msgs.filter (fun m =>
      m.subscriptionId == subscriptionId && decide (m.status = .available) &&
        decide (m.availableAt ≤ now)))).take batchSize

/-- The `UPDATE ... SET` of `consume_messages`. -/
def consumeUpdate (consumerId : String) (now : Int) (m : MessageRow) : MessageRow :=
  { m with status := .delivered, lockedAt := some now, lockedBy := some consumerId,
           deliveryAttempts := m.deliveryAttempts + 1 }

/-- Procedure `consume_messages(p_subscription_id, p_consumer_id, p_batch_size)`: lease
the selected rows to the consumer and return them (`RETURNING sm.*`). -/
def consume_messages (st : DbState) (subscriptionId consumerId : String)
    (batchSize : Nat) (now : Int) : DbState × List MessageRow :=
  let sel := consumeSelect st subscriptionId now batchSize
  let ids := sel.map (fun m => m.id)
  ({ st with msgs := st.msgs.map (fun m =>
      if m.id ∈ ids then consumeUpdate consumerId now m else m) },
   sel.map (consumeUpdate consumerId now))

/-- Procedure `ack_messages(p_subscription_id, p_message_ids)`: finalize the listed
`'delivered'` rows of the subscription. -/
def ack_messages (st : DbState) (subscriptionId : String) (messageIds : List Nat)
    (now : Int) : DbState :=
  { st with msgs := st.msgs.map (fun m =>
      if m.subscriptionId == subscriptionId && decide (m.id ∈ messageIds) &&
          decide (m.status = .delivered) then
        { m with status := .acked, ackedAt := some now, lockedAt := none, lockedBy := none }
      else m) }

/-- Computes `LEAST(sub.backoff_max_seconds, sub.backoff_min_seconds * (2 ^ delivery_attempts))`. -/
def backoffSeconds (s : SubscriptionRec) (deliveryAttempts : Nat) : Nat :=
  min s.backoffMaxSeconds (s.backoffMinSeconds * 2 ^ deliveryAttempts)

/-- The `CASE` update of `nack_messages` applied to one `'delivered'` row. -/
def nackUpdate (s : SubscriptionRec) (now : Int) (m : MessageRow) : MessageRow :=
  if s.maxDeliveryAttempts ≤ m.deliveryAttempts then
    { m with status := .dlq, lockedAt := none, lockedBy := none }
  else
    { m with status := .available,
             availableAt := now + (backoffSeconds s m.deliveryAttempts : Int),
             lockedAt := none, lockedBy := none }

/-- Procedure `nack_messages(p_subscription_id, p_message_ids)`.  When the subscription
does not exist no message row can reference it (foreign key), so the
`UPDATE` touches nothing and the state is unchanged. -/
def nack_messages (st : DbState) (subscriptionId : String) (messageIds : List Nat)
    (now : Int) : DbState :=
  match findSub st subscriptionId with
  | none => st
  | some s =>
    { st with msgs := st.msgs.map (fun m =>
        if decide (m.id ∈ messageIds) && m.subscriptionId == subscriptionId &&
            decide (m.status = .delivered) then
          nackUpdate s now m
        else m) }

/-- Procedure `list_dlq_messages(p_subscription_id, p_limit)` as defined by migration
001: the subscription's `'dlq'` rows ordered by `created_at`, limited — the
function has no offset parameter. -/
def list_dlq_messages (st : DbState) (subscriptionId : String) (limit : Nat) :
    List MessageRow :=
  (sortLe (fun a b => a.createdAt ≤ b.createdAt)
    (st.msgs.filter (fun m =>
      m.subscriptionId == subscriptionId && decide (m.status = .dlq)))).take limit

/-- Procedure `reprocess_dlq_messages(p_subscription_id, p_message_ids)`: move the listed
`'dlq'` rows back to `'available'` with `delivery_attempts = 0` and
`available_at = now()`. -/
def reprocess_dlq_messages (st : DbState) (subscriptionId : String)
    (messageIds : List Nat) (now : Int) : DbState :=
  { st with msgs := st.msgs.map (fun m =>
      if m.subscriptionId == subscriptionId && decide (m.id ∈ messageIds) &&
          decide (m.status = .dlq) then
        { m with status := .available, deliveryAttempts := 0, availableAt := now }
      else m) }

/-- Procedure `cleanup_stuck_messages(p_subscription_id, p_lock_timeout)` as defined by
migration 001: unlock the subscription's `'delivered'` rows whose
`locked_at < now() - p_lock_timeout` (a NULL `locked_at` never compares
true). -/
def cleanup_stuck_messages (st : DbState) (subscriptionId : String)
    (lockTimeout : Int) (now : Int) : DbState :=
  { st with msgs := st.msgs.map (fun m =>
      if m.subscriptionId == subscriptionId && decide (m.status = .delivered) &&
          (match m.lockedAt with
           | some t => decide (t < now - lockTimeout)
           | none => false) then
        { m with status := .available, lockedAt := none, lockedBy := none }
      else m) }

/-- Procedure `cleanup_acked_messages(p_subscription_id, p_older_than)`: delete the
subscription's `'acked'` rows with `acked_at < now() - p_older_than`. -/
def cleanup_acked_messages (st : DbState) (subscriptionId : String)
    (olderThan : Int) (now : Int) : DbState :=
  { st with msgs := st.msgs.filter (fun m =>
      !(m.subscriptionId == subscriptionId && decide (m.status = .acked) &&
        (match m.ackedAt with
         | some t => decide (t < now - olderThan)
         | none => false))) }

/-! ### Service / router layer -/

/-- Error kinds surfaced by the HTTP layer. -/
inductive ApiError where
  | notFound
  | alreadyExists
deriving DecidableEq, Repr

/-- The `POST /topics/:id/messages` handler
(fastpubsub/api/routers/topics.py): `get_topic` first — raising `NotFound`
when the topic does not exist — then `publish_messages`; the stored procedure
runs in a single transaction. -/
def publish_messages_endpoint (st : DbState) (topicId : String)
    (messages : List Json) (now : Int) : Except ApiError (DbState × Nat) :=
  if topicId ∈ st.topics then .ok (publish_messages st topicId messages now)
  else .error .notFound

/-- Service `create_subscription` as seen through `CreateSubscription`
(fastpubsub/models.py): the filter is passed through `sanitize_filter` by the
pydantic field validator before the row is stored. -/
def create_subscription (st : DbState) (sid topicId : String) (filter : Json)
    (maxDeliveryAttempts backoffMinSeconds backoffMaxSeconds : Nat) :
    Except ApiError DbState :=
  if st.subs.any (fun s => s.id == sid) then .error .alreadyExists
  else if topicId ∈ st.topics then
    .ok { st with subs := st.subs ++
      [{ id := sid, topicId := topicId, filter := sanitize_filter filter,
         maxDeliveryAttempts := maxDeliveryAttempts,
         backoffMinSeconds := backoffMinSeconds,
         backoffMaxSeconds := backoffMaxSeconds }] }
  else .error .notFound

/-- The SQL functions created by migration 001 (name, number of arguments).
Migration 002 only adds the `clients` table. -/
def migrationSqlFunctions : List (String × Nat) :=
  [("publish_messages", 2), ("consume_messages", 3), ("ack_messages", 2),
   ("nack_messages", 2), ("list_dlq_messages", 2), ("reprocess_dlq_messages", 2),
   ("cleanup_stuck_messages", 2), ("cleanup_acked_messages", 2),
   ("subscription_metrics", 1)]

/-- The call the service layer issues for DLQ listing
(fastpubsub/services/messages.py):
`SELECT * FROM list_dlq_messages(:subscription_id, :offset, :limit)` —
three arguments. -/
def serviceListDlqCall : String × Nat := ("list_dlq_messages", 3)

/-- The call the service layer issues for the janitor unlock sweep
(fastpubsub/services/messages.py):
`SELECT cleanup_stuck_messages(make_interval(secs => :timeout))` — one
argument, no subscription id. -/
def serviceCleanupStuckCall : String × Nat := ("cleanup_stuck_messages", 1)

/-! ### Basic lemmas about the embedding -/

theorem mem_insertLe {le : MessageRow → MessageRow → Bool} {m a : MessageRow}
    {l : List MessageRow} : a ∈ insertLe le m l ↔ a = m ∨ a ∈ l := by
  induction l with
  | nil => simp [insertLe]
  | cons x xs ih =>
    simp only [insertLe]
    split
    · simp
    · simp only [List.mem_cons, ih]
      tauto

theorem mem_sortLe {le : MessageRow → MessageRow → Bool} {a : MessageRow}
    {l : List MessageRow} : a ∈ sortLe le l ↔ a ∈ l := by
  induction l with
  | nil => simp [sortLe]
  | cons x xs ih => simp [sortLe, mem_insertLe, ih]

theorem publishRows_length (startId : Nat) (now : Int) (ps : List (String × Json)) :
    (publishRows startId now ps).length = ps.length := by
  induction ps generalizing startId with
  | nil => rfl
  | cons p ps ih => simp [publishRows, ih]

theorem mem_publishRows {startId : Nat} {now : Int} {ps : List (String × Json)}
    {m : MessageRow} (h : m ∈ publishRows startId now ps) :
    m.status = .available ∧ m.deliveryAttempts = 0 ∧ m.availableAt = now ∧
      m.lockedAt = none ∧ m.lockedBy = none ∧ m.ackedAt = none ∧
      startId ≤ m.id ∧ m.id < startId + ps.length := by
  induction ps generalizing startId with
  | nil => simp [publishRows] at h
  | cons p ps ih =>
    simp only [publishRows, List.mem_cons] at h
    rcases h with h | h
    · subst h
      refine ⟨rfl, rfl, rfl, rfl, rfl, rfl, le_refl _, ?_⟩
      show startId < startId + (ps.length + 1)
      omega
    · obtain ⟨h1, h2, h3, h4, h5, h6, h7, h8⟩ := ih h
      exact ⟨h1, h2, h3, h4, h5, h6, by omega, by simp only [List.length_cons]; omega⟩

theorem publishRows_map_id (startId : Nat) (now : Int) (ps : List (String × Json)) :
    (publishRows startId now ps).map (fun m => m.id) = List.range' startId ps.length := by
  induction ps generalizing startId with
  | nil => rfl
  | cons p ps ih => simp [publishRows, List.range'_succ, newMessageRow, ih]

/-- The insert count of `publish_messages` is the sum, over the subscriptions
attached to the topic, of the number of object messages matching that
subscription's filter. -/
theorem publish_messages_count (st : DbState) (topicId : String)
    (messages : List Json) (now : Int) :
    (publish_messages st topicId messages now).2 =
      ((st.subs.filter (fun s => s.topicId == topicId)).map (fun s =>
        (messages.filter isJsonObject).countP (fun m => matchesFilter s.filter m))).sum := by
  simp [publish_messages, eligiblePairs, publishRows_length, List.length_flatten,
    List.map_map, Function.comp_def, List.countP_eq_length_filter]

theorem publish_messages_msgs (st : DbState) (topicId : String)
    (messages : List Json) (now : Int) :
    (publish_messages st topicId messages now).1.msgs =
      st.msgs ++ publishRows st.nextId now (eligiblePairs st topicId messages) := rfl

/-! ### C1: publish fan-out count -/

/-- C1: `publish(topic, msgs)` returns N = Σ over subscriptions s attached to
the topic of the number of JSON-object elements of msgs matching s.filter
(non-objects dropped, a topic with no subscriptions sums to 0), and exactly N
rows are inserted, all in state `'available'`. -/
theorem publish_fanout_count_spec (st : DbState) (topicId : String)
    (messages : List Json) (now : Int) :
    (publish_messages st topicId messages now).2 =
      ((st.subs.filter (fun s => s.topicId == topicId)).map (fun s =>
        (messages.filter isJsonObject).countP (fun m => matchesFilter s.filter m))).sum
    ∧ ∃ rows, (publish_messages st topicId messages now).1.msgs = st.msgs ++ rows ∧
        rows.length = (publish_messages st topicId messages now).2 ∧
        ∀ r ∈ rows, r.status = .available := by
  refine ⟨publish_messages_count st topicId messages now,
    publishRows st.nextId now (eligiblePairs st topicId messages),
    publish_messages_msgs st topicId messages now, rfl,
    fun r hr => (mem_publishRows hr).1⟩

/-- A subscription whose filter constrains the key `"k"` to the non-empty
array `["a"]`. -/
def subMissingKey : SubscriptionRec :=
  { id := "s", topicId := "t", filter := Json.obj [("k", Json.arr [Json.str "a"])],
    maxDeliveryAttempts := 5, backoffMinSeconds := 5, backoffMaxSeconds := 300 }

/-- A state with one topic `"t"` and the one subscription `subMissingKey`. -/
def stMissingKey : DbState :=
  { topics := ["t"], subs := [subMissingKey], msgs := [], nextId := 0 }

/-- Witness for C1: the fan-out count property evaluated at a concrete state
and message list. -/
theorem publish_fanout_count_spec_witness :
    (publish_messages stMissingKey "t" [Json.obj []] 0).2 =
      ((stMissingKey.subs.filter (fun s => s.topicId == "t")).map (fun s =>
        ([Json.obj []].filter isJsonObject).countP (fun m => matchesFilter s.filter m))).sum
    ∧ ∃ rows,
        (publish_messages stMissingKey "t" [Json.obj []] 0).1.msgs =
          stMissingKey.msgs ++ rows ∧
        rows.length = (publish_messages stMissingKey "t" [Json.obj []] 0).2 ∧
        ∀ r ∈ rows, r.status = .available :=
  publish_fanout_count_spec stMissingKey "t" [Json.obj []] 0

/-! ### C2: a message missing a filtered key

The claim asserts that a message lacking a key constrained by the filter does
not match and produces no row.  The stored procedure evaluates
`NOT (payload ->> key = ANY (...))` under SQL three-valued logic: a missing
key makes `payload ->> key` NULL, the comparison is NULL, and the `EXISTS`
row is dropped, so the key imposes no constraint and the message matches.
The repository's own test
(`test_publish_and_consume_messages_with_filter`, filter
`other_field: [other_value]`, expected 3 of 3) pins this behavior down. -/

/-- C2 (counterexample): with filter key `"k"` constrained to `["a"]`, the
message `\x7b\x7d` — which lacks `"k"` — matches, and publishing it inserts
one `'available'` row for that subscription. -/
theorem publish_inserts_on_missing_key :
    matchesFilter subMissingKey.filter (Json.obj []) = true
    ∧ (publish_messages stMissingKey "t" [Json.obj []] 0).2 = 1
    ∧ ∃ r ∈ (publish_messages stMissingKey "t" [Json.obj []] 0).1.msgs,
        r.subscriptionId = "s" ∧ r.status = .available := by decide

/-- C2 (amended): for a filter containing key k with a non-empty array value
and a JSON-object message m lacking field k, the key contributes no
constraint (the SQL comparison is NULL); when k is the only filter key, m
matches, and one row is inserted for each such subscription attached to the
published topic. -/
theorem missing_key_matches (k : String) (vs : List Json)
    (mkvs : List (String × Json)) (hvs : vs ≠ [])
    (hk : mkvs.find? (fun kv => kv.1 == k) = none) :
    keyViolation (Json.obj mkvs) k (Json.arr vs) = false
    ∧ matchesFilter (Json.obj [(k, Json.arr vs)]) (Json.obj mkvs) = true
    ∧ ∀ (st : DbState) (t : String) (s : SubscriptionRec), s ∈ st.subs →
        s.topicId = t → s.filter = Json.obj [(k, Json.arr vs)] →
        0 < (publish_messages st t [Json.obj mkvs] 0).2 := by
  have hft : jsonFieldText (Json.obj mkvs) k = none := by
    simp [jsonFieldText, hk]
  have hAny : sqlEqAnyText (jsonFieldText (Json.obj mkvs) k)
      (jsonArrayElementsText (Json.arr vs)) = none := by
    rw [hft]
    cases vs with
    | nil => exact absurd rfl hvs
    | cons v vs' => simp [sqlEqAnyText, jsonArrayElementsText]
  have hviol : keyViolation (Json.obj mkvs) k (Json.arr vs) = false := by
    simp [keyViolation, hAny]
  have hmatch : matchesFilter (Json.obj [(k, Json.arr vs)]) (Json.obj mkvs) = true := by
    simp [matchesFilter, hviol]
  refine ⟨hviol, hmatch, fun st t s hs ht hfil => ?_⟩
  rw [publish_messages_count]
  have hmem : s ∈ st.subs.filter (fun s' => s'.topicId == t) :=
    List.mem_filter.mpr ⟨hs, by simp [ht]⟩
  have hcount : ([Json.obj mkvs].filter isJsonObject).countP
      (fun m => matchesFilter s.filter m) = 1 := by
    simp [isJsonObject, List.countP_cons, hfil, hmatch]
  calc 0 < 1 := Nat.zero_lt_one
    _ = ([Json.obj mkvs].filter isJsonObject).countP
          (fun m => matchesFilter s.filter m) := hcount.symm
    _ ≤ _ := List.single_le_sum (fun x _ => Nat.zero_le x) _
          (List.mem_map_of_mem (fun s' =>
            ([Json.obj mkvs].filter isJsonObject).countP
              (fun m => matchesFilter s'.filter m)) hmem)

/-- Witness for C2 (amended): the missing-key property at the concrete filter
key `"k"`, allowed values `["a"]` and empty-object message. -/
theorem missing_key_matches_witness :
    keyViolation (Json.obj []) "k" (Json.arr [Json.str "a"]) = false
    ∧ matchesFilter (Json.obj [("k", Json.arr [Json.str "a"])]) (Json.obj []) = true
    ∧ ∀ (st : DbState) (t : String) (s : SubscriptionRec), s ∈ st.subs →
        s.topicId = t → s.filter = Json.obj [("k", Json.arr [Json.str "a"])] →
        0 < (publish_messages st t [Json.obj []] 0).2 :=
  missing_key_matches "k" [Json.str "a"] [] (by decide) rfl

/-! ### C3: consume leases a bounded batch of due available messages -/

theorem mem_consumeSelect {st : DbState} {sid : String} {now : Int} {k : Nat}
    {m : MessageRow} (h : m ∈ consumeSelect st sid now k) :
    m ∈ st.msgs ∧ m.subscriptionId = sid ∧ m.status = .available ∧
      m.availableAt ≤ now := by
  have h1 := List.mem_of_mem_take h
  rw [mem_sortLe] at h1
  have h2 := List.mem_filter.mp h1
  have h3 : m.subscriptionId = sid ∧ m.status = .available ∧ m.availableAt ≤ now := by
    simpa [Bool.and_eq_true, beq_iff_eq, decide_eq_true_eq, and_assoc] using h2.2
  exact ⟨h2.1, h3⟩

/-- C3: `consume(sub, c, k)` with `k ∈ [1,100]` returns a batch B with
`|B| ≤ k`; every member of B is delivered to c (status `'delivered'`,
`locked_by = c`, `locked_at = now`) in the new state and originates from a row
that was `'available'` with `available_at ≤ now`, with `delivery_attempts`
incremented by exactly one; rows whose id is not in B are unchanged. -/
theorem consume_lease_spec (st : DbState) (sid c : String) (k : Nat) (now : Int)
    (hk1 : 1 ≤ k) (hk2 : k ≤ 100) :
    (consume_messages st sid c k now).2.length ≤ k
    ∧ (∀ m ∈ (consume_messages st sid c k now).2,
        m.status = .delivered ∧ m.lockedBy = some c ∧ m.lockedAt = some now ∧
        m ∈ (consume_messages st sid c k now).1.msgs ∧
        ∃ m0 ∈ st.msgs, m0.id = m.id ∧ m0.subscriptionId = sid ∧
          m0.status = .available ∧ m0.availableAt ≤ now ∧
          m.deliveryAttempts = m0.deliveryAttempts + 1)
    ∧ (∀ m0 ∈ st.msgs,
        m0.id ∉ (consume_messages st sid c k now).2.map (fun m => m.id) →
        m0 ∈ (consume_messages st sid c k now).1.msgs) := by
  have h2 : (consume_messages st sid c k now).2 =
      (consumeSelect st sid now k).map (consumeUpdate c now) := rfl
  have h1 : (consume_messages st sid c k now).1.msgs =
      st.msgs.map (fun m =>
        if m.id ∈ (consumeSelect st sid now k).map (fun x => x.id) then
          consumeUpdate c now m
        else m) := rfl
  refine ⟨?_, ?_, ?_⟩
  · rw [h2, List.length_map]
    simp only [consumeSelect, List.length_take]
    exact min_le_left _ _
  · rw [h2]
    intro m hm
    obtain ⟨m0, hm0sel, rfl⟩ := List.mem_map.mp hm
    obtain ⟨hmem, hsid, hav, hle⟩ := mem_consumeSelect hm0sel
    refine ⟨rfl, rfl, rfl, ?_, m0, hmem, rfl, hsid, hav, hle, rfl⟩
    rw [h1]
    have hcond : m0.id ∈ (consumeSelect st sid now k).map (fun x => x.id) :=
      List.mem_map_of_mem _ hm0sel
    have hx := List.mem_map_of_mem (fun m =>
      if m.id ∈ (consumeSelect st sid now k).map (fun x => x.id) then
        consumeUpdate c now m
      else m) hmem
    have heq : (fun m =>
      if m.id ∈ (consumeSelect st sid now k).map (fun x => x.id) then
        consumeUpdate c now m
      else m) m0 = consumeUpdate c now m0 := by
      show (if m0.id ∈ (consumeSelect st sid now k).map (fun x => x.id) then
        consumeUpdate c now m0 else m0) = consumeUpdate c now m0
      exact if_pos hcond
    exact heq ▸ hx
  · intro m0 hm0 hnot
    rw [h2] at hnot
    have hids : ((consumeSelect st sid now k).map (consumeUpdate c now)).map
        (fun m => m.id) = (consumeSelect st sid now k).map (fun m => m.id) := by
      rw [List.map_map]; rfl
    rw [hids] at hnot
    rw [h1]
    have hx := List.mem_map_of_mem (fun m =>
      if m.id ∈ (consumeSelect st sid now k).map (fun x => x.id) then
        consumeUpdate c now m
      else m) hm0
    have heq : (fun m =>
      if m.id ∈ (consumeSelect st sid now k).map (fun x => x.id) then
        consumeUpdate c now m
      else m) m0 = m0 := by
      show (if m0.id ∈ (consumeSelect st sid now k).map (fun x => x.id) then
        consumeUpdate c now m0 else m0) = m0
      exact if_neg hnot
    exact heq ▸ hx

/-- An `'available'` row due for consumption, used by concrete instances. -/
def rowAvail : MessageRow :=
  { id := 0, subscriptionId := "s", payload := Json.obj [], status := .available,
    deliveryAttempts := 0, availableAt := 0, lockedAt := none, lockedBy := none,
    createdAt := 0, ackedAt := none }

/-- A state with topic `"t"`, subscription `"s"` and the one due row. -/
def stConsume : DbState :=
  { topics := ["t"], subs := [subMissingKey], msgs := [rowAvail], nextId := 1 }

/-- Witness for C3: the lease specification at a concrete one-row state with
batch size 1. -/
theorem consume_lease_spec_witness :
    (consume_messages stConsume "s" "c1" 1 0).2.length ≤ 1
    ∧ (∀ m ∈ (consume_messages stConsume "s" "c1" 1 0).2,
        m.status = .delivered ∧ m.lockedBy = some "c1" ∧ m.lockedAt = some 0 ∧
        m ∈ (consume_messages stConsume "s" "c1" 1 0).1.msgs ∧
        ∃ m0 ∈ stConsume.msgs, m0.id = m.id ∧ m0.subscriptionId = "s" ∧
          m0.status = .available ∧ m0.availableAt ≤ 0 ∧
          m.deliveryAttempts = m0.deliveryAttempts + 1)
    ∧ (∀ m0 ∈ stConsume.msgs,
        m0.id ∉ (consume_messages stConsume "s" "c1" 1 0).2.map (fun m => m.id) →
        m0 ∈ (consume_messages stConsume "s" "c1" 1 0).1.msgs) :=
  consume_lease_spec stConsume "s" "c1" 1 0 (by decide) (by decide)

/-! ### C4: nack — DLQ promotion at the bound, exponential backoff below it -/

/-- C4: for a listed message of the subscription in state `'delivered'`, nack
moves it to `'dlq'` (with `available_at` unchanged) when
`delivery_attempts ≥ max_delivery_attempts`, and otherwise to `'available'`
with `available_at = now + min(backoff_max, backoff_min · 2^attempts)`; both
branches clear the lock columns, and rows not in `'delivered'` are left
unchanged. -/
theorem nack_backoff_spec (st : DbState) (sid : String) (ids : List Nat)
    (now : Int) (s : SubscriptionRec) (hs : findSub st sid = some s) :
    ∀ m ∈ st.msgs,
      ((m.subscriptionId = sid → m.id ∈ ids → m.status = .delivered →
        ((s.maxDeliveryAttempts ≤ m.deliveryAttempts →
          { m with status := .dlq, lockedAt := none, lockedBy := none }
            ∈ (nack_messages st sid ids now).msgs)
         ∧ (m.deliveryAttempts < s.maxDeliveryAttempts →
          { m with status := .available,
                   availableAt := now + (backoffSeconds s m.deliveryAttempts : Int),
                   lockedAt := none, lockedBy := none }
            ∈ (nack_messages st sid ids now).msgs)))
       ∧ (m.status ≠ .delivered → m ∈ (nack_messages st sid ids now).msgs)) := by
  intro m hm
  have hmsgs : (nack_messages st sid ids now).msgs =
      st.msgs.map (fun mm =>
        if decide (mm.id ∈ ids) && mm.subscriptionId == sid &&
            decide (mm.status = .delivered) then
          nackUpdate s now mm
        else mm) := by
    simp [nack_messages, hs]
  have hx := List.mem_map_of_mem (fun mm =>
    if decide (mm.id ∈ ids) && mm.subscriptionId == sid &&
        decide (mm.status = .delivered) then
      nackUpdate s now mm
    else mm) hm
  constructor
  · intro h1 h2 h3
    have heq : (fun mm =>
        if decide (mm.id ∈ ids) && mm.subscriptionId == sid &&
            decide (mm.status = .delivered) then
          nackUpdate s now mm
        else mm) m = nackUpdate s now m := by
      show (if decide (m.id ∈ ids) && m.subscriptionId == sid &&
          decide (m.status = .delivered) then nackUpdate s now m else m)
        = nackUpdate s now m
      exact if_pos (by simp [h1, h2, h3])
    constructor
    · intro h4
      have hupd : nackUpdate s now m =
          { m with status := .dlq, lockedAt := none, lockedBy := none } := by
        unfold nackUpdate
        rw [if_pos h4]
      rw [hmsgs]
      exact (heq.trans hupd) ▸ hx
    · intro h4
      have hupd : nackUpdate s now m =
          { m with status := .available,
                   availableAt := now + (backoffSeconds s m.deliveryAttempts : Int),
                   lockedAt := none, lockedBy := none } := by
        unfold nackUpdate
        rw [if_neg (Nat.not_le.mpr h4)]
      rw [hmsgs]
      exact (heq.trans hupd) ▸ hx
  · intro h1
    have heq : (fun mm =>
        if decide (mm.id ∈ ids) && mm.subscriptionId == sid &&
            decide (mm.status = .delivered) then
          nackUpdate s now mm
        else mm) m = m := by
      show (if decide (m.id ∈ ids) && m.subscriptionId == sid &&
          decide (m.status = .delivered) then nackUpdate s now m else m) = m
      exact if_neg (by simp [h1])
    rw [hmsgs]
    exact heq ▸ hx

/-- A `'delivered'` row leased to `"c1"`, used by concrete instances. -/
def rowDelivered : MessageRow :=
  { id := 0, subscriptionId := "s", payload := Json.obj [], status := .delivered,
    deliveryAttempts := 1, availableAt := 0, lockedAt := some 0,
    lockedBy := some "c1", createdAt := 0, ackedAt := none }

/-- A state with the one delivered row of subscription `"s"`. -/
def stNack : DbState :=
  { topics := ["t"], subs := [subMissingKey], msgs := [rowDelivered], nextId := 1 }

/-- Witness for C4: the nack specification at the concrete delivered row. -/
theorem nack_backoff_spec_witness :
    ((rowDelivered.subscriptionId = "s" → rowDelivered.id ∈ [0] →
      rowDelivered.status = .delivered →
        ((subMissingKey.maxDeliveryAttempts ≤ rowDelivered.deliveryAttempts →
          { rowDelivered with status := .dlq, lockedAt := none, lockedBy := none }
            ∈ (nack_messages stNack "s" [0] 100).msgs)
         ∧ (rowDelivered.deliveryAttempts < subMissingKey.maxDeliveryAttempts →
          { rowDelivered with
              status := .available,
              availableAt :=
                100 + (backoffSeconds subMissingKey rowDelivered.deliveryAttempts : Int),
              lockedAt := none, lockedBy := none }
            ∈ (nack_messages stNack "s" [0] 100).msgs)))
     ∧ (rowDelivered.status ≠ .delivered →
        rowDelivered ∈ (nack_messages stNack "s" [0] 100).msgs)) :=
  nack_backoff_spec stNack "s" [0] 100 subMissingKey rfl rowDelivered (by decide)

/-! ### The transition system of the message-flow engine -/

/-- One observable transition: any data-plane operation with arbitrary
arguments (publish, consume, ack, nack, DLQ reprocess, and both janitor
sweeps). -/
inductive Step : DbState → DbState → Prop where
  | publish (st : DbState) (topicId : String) (messages : List Json) (now : Int) :
      Step st (publish_messages st topicId messages now).1
  | consume (st : DbState) (sid c : String) (k : Nat) (now : Int) :
      Step st (consume_messages st sid c k now).1
  | ack (st : DbState) (sid : String) (ids : List Nat) (now : Int) :
      Step st (ack_messages st sid ids now)
  | nack (st : DbState) (sid : String) (ids : List Nat) (now : Int) :
      Step st (nack_messages st sid ids now)
  | reprocess (st : DbState) (sid : String) (ids : List Nat) (now : Int) :
      Step st (reprocess_dlq_messages st sid ids now)
  | cleanupStuck (st : DbState) (sid : String) (lockTimeout now : Int) :
      Step st (cleanup_stuck_messages st sid lockTimeout now)
  | cleanupAcked (st : DbState) (sid : String) (olderThan now : Int) :
      Step st (cleanup_acked_messages st sid olderThan now)

/-- The transitions other than the janitor stuck-lock sweep. -/
inductive CoreStep : DbState → DbState → Prop where
  | publish (st : DbState) (topicId : String) (messages : List Json) (now : Int) :
      CoreStep st (publish_messages st topicId messages now).1
  | consume (st : DbState) (sid c : String) (k : Nat) (now : Int) :
      CoreStep st (consume_messages st sid c k now).1
  | ack (st : DbState) (sid : String) (ids : List Nat) (now : Int) :
      CoreStep st (ack_messages st sid ids now)
  | nack (st : DbState) (sid : String) (ids : List Nat) (now : Int) :
      CoreStep st (nack_messages st sid ids now)
  | reprocess (st : DbState) (sid : String) (ids : List Nat) (now : Int) :
      CoreStep st (reprocess_dlq_messages st sid ids now)
  | cleanupAcked (st : DbState) (sid : String) (olderThan now : Int) :
      CoreStep st (cleanup_acked_messages st sid olderThan now)

/-- Reachability through arbitrary transitions. -/
inductive Reachable : DbState → DbState → Prop where
  | refl (st : DbState) : Reachable st st
  | step (st1 st2 st3 : DbState) :
      Reachable st1 st2 → Step st2 st3 → Reachable st1 st3

/-- Reachability through the transitions other than the stuck-lock sweep. -/
inductive ReachableCore : DbState → DbState → Prop where
  | refl (st : DbState) : ReachableCore st st
  | step (st1 st2 st3 : DbState) :
      ReachableCore st1 st2 → CoreStep st2 st3 → ReachableCore st1 st3

theorem coreStep_step {st st' : DbState} (h : CoreStep st st') : Step st st' := by
  cases h with
  | publish tid msgs now => exact Step.publish st tid msgs now
  | consume sid c k now => exact Step.consume st sid c k now
  | ack sid ids now => exact Step.ack st sid ids now
  | nack sid ids now => exact Step.nack st sid ids now
  | reprocess sid ids now => exact Step.reprocess st sid ids now
  | cleanupAcked sid ot now => exact Step.cleanupAcked st sid ot now

/-! ### Well-formedness and invariants -/

/-- Message-row ids are generator-fresh and pairwise distinct (in the real
schema the id is a generated UUID primary key). -/
def idsWf (st : DbState) : Prop :=
  (∀ m ∈ st.msgs, m.id < st.nextId) ∧ (st.msgs.map (fun m => m.id)).Nodup

/-- Every subscription has `max_delivery_attempts ≥ 1`, as enforced by
`CreateSubscription` (`Field(..., ge=1)`). -/
def subsOk (st : DbState) : Prop :=
  ∀ s ∈ st.subs, 1 ≤ s.maxDeliveryAttempts

/-- Spec invariant 3 (first half): `delivery_attempts` never exceeds the
subscription's `max_delivery_attempts`. -/
def attemptsBound (st : DbState) : Prop :=
  ∀ m ∈ st.msgs, ∀ s, findSub st m.subscriptionId = some s →
    m.deliveryAttempts ≤ s.maxDeliveryAttempts

/-- Strengthening used for induction: an `'available'` row is strictly below
the bound, so the increment in `consume_messages` cannot exceed it. -/
def availBelow (st : DbState) : Prop :=
  ∀ m ∈ st.msgs, m.status = .available → ∀ s, findSub st m.subscriptionId = some s →
    m.deliveryAttempts < s.maxDeliveryAttempts

/-- The inductive invariant for the attempts bound. -/
def coreInv (st : DbState) : Prop :=
  idsWf st ∧ subsOk st ∧ attemptsBound st ∧ availBelow st

theorem step_subs {st st' : DbState} (h : Step st st') : st'.subs = st.subs := by
  cases h with
  | publish => rfl
  | consume => rfl
  | ack => rfl
  | nack sid ids now =>
    show (nack_messages st sid ids now).subs = st.subs
    unfold nack_messages
    split <;> rfl
  | reprocess => rfl
  | cleanupStuck => rfl
  | cleanupAcked => rfl

theorem step_findSub {st st' : DbState} (h : Step st st') (sid : String) :
    findSub st' sid = findSub st sid := by
  unfold findSub
  rw [step_subs h]

theorem map_ids_congr {msgs : List MessageRow} {f : MessageRow → MessageRow}
    (hf : ∀ m ∈ msgs, (f m).id = m.id) :
    (msgs.map f).map (fun m => m.id) = msgs.map (fun m => m.id) := by
  rw [List.map_map]
  exact List.map_congr_left (fun a ha => hf a ha)

theorem publish_messages_nextId (st : DbState) (topicId : String)
    (messages : List Json) (now : Int) :
    (publish_messages st topicId messages now).1.nextId =
      st.nextId + (publishRows st.nextId now (eligiblePairs st topicId messages)).length :=
  rfl

theorem idsWf_map {st : DbState} (hw : idsWf st) (f : MessageRow → MessageRow)
    (hf : ∀ m ∈ st.msgs, (f m).id = m.id) :
    idsWf { st with msgs := st.msgs.map f } := by
  obtain ⟨hlt, hnd⟩ := hw
  constructor
  · intro m hm
    obtain ⟨m0, hm0, rfl⟩ := List.mem_map.mp hm
    show (f m0).id < st.nextId
    rw [hf m0 hm0]
    exact hlt m0 hm0
  · show ((st.msgs.map f).map (fun m => m.id)).Nodup
    rw [map_ids_congr hf]
    exact hnd

theorem idsWf_filter {st : DbState} (hw : idsWf st) (p : MessageRow → Bool) :
    idsWf { st with msgs := st.msgs.filter p } := by
  refine ⟨fun m hm => hw.1 m (List.mem_of_mem_filter hm), ?_⟩
  show ((st.msgs.filter p).map (fun m => m.id)).Nodup
  exact List.Nodup.sublist ((List.filter_sublist st.msgs).map (fun m => m.id)) hw.2

theorem idsWf_step {st st' : DbState} (hw : idsWf st) (h : Step st st') :
    idsWf st' := by
  cases h with
  | publish tid messages now =>
    constructor
    · intro m hm
      rw [publish_messages_msgs] at hm
      rw [publish_messages_nextId]
      rcases List.mem_append.mp hm with h1 | h1
      · have := hw.1 m h1
        omega
      · have h2 := (mem_publishRows h1).2.2.2.2.2.2.2
        rw [publishRows_length]
        exact h2
    · show (((publish_messages st tid messages now).1.msgs).map (fun m => m.id)).Nodup
      rw [publish_messages_msgs, List.map_append, publishRows_map_id]
      rw [List.nodup_append]
      refine ⟨hw.2, by exact List.nodup_range' _ _, ?_⟩
      intro a ha hb
      obtain ⟨m, hm, rfl⟩ := List.mem_map.mp ha
      have h1 : m.id < st.nextId := hw.1 m hm
      have h2 : st.nextId ≤ m.id := (List.mem_range'_1.mp hb).1
      omega
  | consume sid c k now =>
    exact idsWf_map hw _ (fun m hm => by
      show (if m.id ∈ (consumeSelect st sid now k).map (fun x => x.id) then
        consumeUpdate c now m else m).id = m.id
      split <;> rfl)
  | ack sid ids now =>
    exact idsWf_map hw _ (fun m hm => by
      show (if m.subscriptionId == sid && decide (m.id ∈ ids) &&
          decide (m.status = .delivered) then
        { m with status := .acked, ackedAt := some now,
                 lockedAt := none, lockedBy := none }
      else m).id = m.id
      split <;> rfl)
  | nack sid ids now =>
    show idsWf (nack_messages st sid ids now)
    unfold nack_messages
    split
    · exact hw
    · exact idsWf_map hw _ (fun m hm => by
        show (if decide (m.id ∈ ids) && m.subscriptionId == sid &&
            decide (m.status = .delivered) then
          nackUpdate _ now m else m).id = m.id
        split
        · unfold nackUpdate
          split <;> rfl
        · rfl)
  | reprocess sid ids now =>
    exact idsWf_map hw _ (fun m hm => by
      show (if m.subscriptionId == sid && decide (m.id ∈ ids) &&
          decide (m.status = .dlq) then
        { m with status := .available, deliveryAttempts := 0, availableAt := now }
      else m).id = m.id
      split <;> rfl)
  | cleanupStuck sid lockTimeout now =>
    exact idsWf_map hw _ (fun m hm => by
      show (if m.subscriptionId == sid && decide (m.status = .delivered) &&
          (match m.lockedAt with
           | some t => decide (t < now - lockTimeout)
           | none => false) then
        { m with status := .available, lockedAt := none, lockedBy := none }
      else m).id = m.id
      split <;> rfl)
  | cleanupAcked sid olderThan now =>
    exact idsWf_filter hw _

theorem findSub_mem {st : DbState} {sid : String} {s : SubscriptionRec}
    (h : findSub st sid = some s) : s ∈ st.subs :=
  List.mem_of_find?_eq_some h

/-- Preservation of the attempts invariant under one non-janitor-stuck
transition. -/
theorem coreInv_step {st st' : DbState} (hinv : coreInv st) (h : CoreStep st st') :
    coreInv st' := by
  obtain ⟨hw, hsubs, hbound, havail⟩ := hinv
  have hstep := coreStep_step h
  have hw' := idsWf_step hw hstep
  have hsubs' : subsOk st' := by
    unfold subsOk
    rw [step_subs hstep]
    exact hsubs
  have hfs := step_findSub hstep
  refine ⟨hw', hsubs', ?_⟩
  cases h with
  | publish tid messages now =>
    constructor
    · intro m hm s hfind
      rw [hfs _] at hfind
      rw [publish_messages_msgs] at hm
      rcases List.mem_append.mp hm with h1 | h1
      · exact hbound m h1 s hfind
      · rw [(mem_publishRows h1).2.1]
        exact Nat.zero_le _
    · intro m hm hav s hfind
      rw [hfs _] at hfind
      rw [publish_messages_msgs] at hm
      rcases List.mem_append.mp hm with h1 | h1
      · exact havail m h1 hav s hfind
      · rw [(mem_publishRows h1).2.1]
        exact hsubs s (findSub_mem hfind)
  | consume sid c k now =>
    have hmsgs : (consume_messages st sid c k now).1.msgs =
        st.msgs.map (fun m =>
          if m.id ∈ (consumeSelect st sid now k).map (fun x => x.id) then
            consumeUpdate c now m
          else m) := rfl
    constructor
    · intro m' hm' s hfind
      rw [hfs _] at hfind
      rw [hmsgs] at hm'
      obtain ⟨m, hm, hfe⟩ := List.mem_map.mp hm'
      by_cases hc : m.id ∈ (consumeSelect st sid now k).map (fun x => x.id)
      · have heq : m' = consumeUpdate c now m := by rw [← hfe]; exact if_pos hc
        subst heq
        obtain ⟨msel, hmsel, hident⟩ := List.mem_map.mp hc
        obtain ⟨hmselmem, hsid', hav', hle'⟩ := mem_consumeSelect hmsel
        have hms : msel = m := List.inj_on_of_nodup_map hw.2 hmselmem hm hident
        subst hms
        have hlt := havail msel hmselmem hav' s hfind
        show msel.deliveryAttempts + 1 ≤ s.maxDeliveryAttempts
        omega
      · have heq : m' = m := by rw [← hfe]; exact if_neg hc
        subst heq
        exact hbound m' hm s hfind
    · intro m' hm' hav s hfind
      rw [hfs _] at hfind
      rw [hmsgs] at hm'
      obtain ⟨m, hm, hfe⟩ := List.mem_map.mp hm'
      by_cases hc : m.id ∈ (consumeSelect st sid now k).map (fun x => x.id)
      · have heq : m' = consumeUpdate c now m := by rw [← hfe]; exact if_pos hc
        rw [heq] at hav
        exact absurd hav (by simp [consumeUpdate])
      · have heq : m' = m := by rw [← hfe]; exact if_neg hc
        subst heq
        exact havail m' hm hav s hfind
  | ack sid ids now =>
    have hmsgs : (ack_messages st sid ids now).msgs =
        st.msgs.map (fun m =>
          if m.subscriptionId == sid && decide (m.id ∈ ids) &&
              decide (m.status = .delivered) then
            { m with status := .acked, ackedAt := some now,
                     lockedAt := none, lockedBy := none }
          else m) := rfl
    constructor
    · intro m' hm' s hfind
      rw [hfs _] at hfind
      rw [hmsgs] at hm'
      obtain ⟨m, hm, hfe⟩ := List.mem_map.mp hm'
      by_cases hc : (m.subscriptionId == sid && decide (m.id ∈ ids) &&
          decide (m.status = .delivered)) = true
      · have heq : m' = { m with status := .acked, ackedAt := some now, lockedAt := none, lockedBy := none } := by
          rw [← hfe]; exact if_pos hc
        subst heq
        exact hbound m hm s hfind
      · have heq : m' = m := by rw [← hfe]; exact if_neg hc
        subst heq
        exact hbound m' hm s hfind
    · intro m' hm' hav s hfind
      rw [hfs _] at hfind
      rw [hmsgs] at hm'
      obtain ⟨m, hm, hfe⟩ := List.mem_map.mp hm'
      by_cases hc : (m.subscriptionId == sid && decide (m.id ∈ ids) &&
          decide (m.status = .delivered)) = true
      · have heq : m' = { m with status := .acked, ackedAt := some now, lockedAt := none, lockedBy := none } := by
          rw [← hfe]; exact if_pos hc
        rw [heq] at hav
        exact absurd hav (by simp)
      · have heq : m' = m := by rw [← hfe]; exact if_neg hc
        subst heq
        exact havail m' hm hav s hfind
  | nack sid ids now =>
    cases hfind0 : findSub st sid with
    | none =>
      have hst : nack_messages st sid ids now = st := by
        unfold nack_messages
        rw [hfind0]
      rw [hst]
      exact ⟨hbound, havail⟩
    | some s0 =>
      have hmsgs : (nack_messages st sid ids now).msgs =
          st.msgs.map (fun m =>
            if decide (m.id ∈ ids) && m.subscriptionId == sid &&
                decide (m.status = .delivered) then
              nackUpdate s0 now m
            else m) := by
        unfold nack_messages
        rw [hfind0]
      constructor
      · intro m' hm' s hfind
        rw [hfs _] at hfind
        rw [hmsgs] at hm'
        obtain ⟨m, hm, hfe⟩ := List.mem_map.mp hm'
        by_cases hc : (decide (m.id ∈ ids) && m.subscriptionId == sid &&
            decide (m.status = .delivered)) = true
        · have heq : m' = nackUpdate s0 now m := by rw [← hfe]; exact if_pos hc
          subst heq
          rw [show (nackUpdate s0 now m).subscriptionId = m.subscriptionId from by
            unfold nackUpdate; split <;> rfl] at hfind
          unfold nackUpdate
          split
          · exact hbound m hm s hfind
          · exact hbound m hm s hfind
        · have heq : m' = m := by rw [← hfe]; exact if_neg hc
          subst heq
          exact hbound m' hm s hfind
      · intro m' hm' hav s hfind
        rw [hfs _] at hfind
        rw [hmsgs] at hm'
        obtain ⟨m, hm, hfe⟩ := List.mem_map.mp hm'
        by_cases hc : (decide (m.id ∈ ids) && m.subscriptionId == sid &&
            decide (m.status = .delivered)) = true
        · have heq : m' = nackUpdate s0 now m := by rw [← hfe]; exact if_pos hc
          have hsid : m.subscriptionId = sid := by
            simp only [Bool.and_eq_true, beq_iff_eq, decide_eq_true_eq] at hc
            exact hc.1.2
          subst heq
          unfold nackUpdate at hav ⊢
          split at hav
          · exact absurd hav (by simp)
          · rename_i hlt
            have hseq : s = s0 := by
              rw [show (nackUpdate s0 now m).subscriptionId = m.subscriptionId from by
                unfold nackUpdate; split <;> rfl, hsid, hfind0] at hfind
              exact (Option.some.inj hfind).symm
            subst hseq
            split
            · exact Nat.lt_of_not_le hlt
            · exact Nat.lt_of_not_le hlt
        · have heq : m' = m := by rw [← hfe]; exact if_neg hc
          subst heq
          exact havail m' hm hav s hfind
  | reprocess sid ids now =>
    have hmsgs : (reprocess_dlq_messages st sid ids now).msgs =
        st.msgs.map (fun m =>
          if m.subscriptionId == sid && decide (m.id ∈ ids) &&
              decide (m.status = .dlq) then
            { m with status := .available, deliveryAttempts := 0, availableAt := now }
          else m) := rfl
    constructor
    · intro m' hm' s hfind
      rw [hfs _] at hfind
      rw [hmsgs] at hm'
      obtain ⟨m, hm, hfe⟩ := List.mem_map.mp hm'
      by_cases hc : (m.subscriptionId == sid && decide (m.id ∈ ids) &&
          decide (m.status = .dlq)) = true
      · have heq : m' = { m with status := .available, deliveryAttempts := 0, availableAt := now } := by
          rw [← hfe]; exact if_pos hc
        subst heq
        exact Nat.zero_le _
      · have heq : m' = m := by rw [← hfe]; exact if_neg hc
        subst heq
        exact hbound m' hm s hfind
    · intro m' hm' hav s hfind
      rw [hfs _] at hfind
      rw [hmsgs] at hm'
      obtain ⟨m, hm, hfe⟩ := List.mem_map.mp hm'
      by_cases hc : (m.subscriptionId == sid && decide (m.id ∈ ids) &&
          decide (m.status = .dlq)) = true
      · have heq : m' = { m with status := .available, deliveryAttempts := 0, availableAt := now } := by
          rw [← hfe]; exact if_pos hc
        subst heq
        exact hsubs s (findSub_mem hfind)
      · have heq : m' = m := by rw [← hfe]; exact if_neg hc
        subst heq
        exact havail m' hm hav s hfind
  | cleanupAcked sid olderThan now =>
    constructor
    · intro m' hm' s hfind
      rw [hfs _] at hfind
      exact hbound m' (List.mem_of_mem_filter hm') s hfind
    · intro m' hm' hav s hfind
      rw [hfs _] at hfind
      exact havail m' (List.mem_of_mem_filter hm') hav s hfind

/-- The attempts invariant holds in every state reachable without the
stuck-lock sweep. -/
theorem coreInv_reachable {st0 st : DbState} (h0 : coreInv st0)
    (h : ReachableCore st0 st) : coreInv st := by
  induction h with
  | refl => exact h0
  | step st2 st3 hr hs ih => exact coreInv_step ih hs

/-- Across any single transition, a `'dlq'` row either was already in `'dlq'`
or was produced by `nack_messages` from a `'delivered'` row whose attempt
count had reached the subscription's bound. -/
theorem dlq_entry {st st' : DbState} (h : Step st st') (m' : MessageRow)
    (hm' : m' ∈ st'.msgs) (hdlq : m'.status = .dlq) :
    (∃ m ∈ st.msgs, m.id = m'.id ∧ m.status = .dlq) ∨
    (∃ sid ids now, st' = nack_messages st sid ids now ∧
       ∃ m ∈ st.msgs, m.id = m'.id ∧ m.status = .delivered ∧
         ∃ s, findSub st sid = some s ∧
           s.maxDeliveryAttempts ≤ m.deliveryAttempts) := by
  cases h with
  | publish tid messages now =>
    left
    rw [publish_messages_msgs] at hm'
    rcases List.mem_append.mp hm' with h1 | h1
    · exact ⟨m', h1, rfl, hdlq⟩
    · rw [(mem_publishRows h1).1] at hdlq
      simp at hdlq
  | consume sid c k now =>
    left
    have hmsgs : (consume_messages st sid c k now).1.msgs =
        st.msgs.map (fun m =>
          if m.id ∈ (consumeSelect st sid now k).map (fun x => x.id) then
            consumeUpdate c now m
          else m) := rfl
    rw [hmsgs] at hm'
    obtain ⟨m, hm, hfe⟩ := List.mem_map.mp hm'
    by_cases hc : m.id ∈ (consumeSelect st sid now k).map (fun x => x.id)
    · have heq : m' = consumeUpdate c now m := by rw [← hfe]; exact if_pos hc
      rw [heq] at hdlq
      simp [consumeUpdate] at hdlq
    · have heq : m' = m := by rw [← hfe]; exact if_neg hc
      subst heq
      exact ⟨m', hm, rfl, hdlq⟩
  | ack sid ids now =>
    left
    have hmsgs : (ack_messages st sid ids now).msgs =
        st.msgs.map (fun m =>
          if m.subscriptionId == sid && decide (m.id ∈ ids) &&
              decide (m.status = .delivered) then
            { m with status := .acked, ackedAt := some now, lockedAt := none, lockedBy := none }
          else m) := rfl
    rw [hmsgs] at hm'
    obtain ⟨m, hm, hfe⟩ := List.mem_map.mp hm'
    by_cases hc : (m.subscriptionId == sid && decide (m.id ∈ ids) &&
        decide (m.status = .delivered)) = true
    · have heq : m' = { m with status := .acked, ackedAt := some now, lockedAt := none, lockedBy := none } := by
        rw [← hfe]; exact if_pos hc
      rw [heq] at hdlq
      simp at hdlq
    · have heq : m' = m := by rw [← hfe]; exact if_neg hc
      subst heq
      exact ⟨m', hm, rfl, hdlq⟩
  | nack sid ids now =>
    cases hfind0 : findSub st sid with
    | none =>
      have hst : nack_messages st sid ids now = st := by
        unfold nack_messages
        rw [hfind0]
      rw [hst] at hm'
      exact Or.inl ⟨m', hm', rfl, hdlq⟩
    | some s0 =>
      have hmsgs : (nack_messages st sid ids now).msgs =
          st.msgs.map (fun m =>
            if decide (m.id ∈ ids) && m.subscriptionId == sid &&
                decide (m.status = .delivered) then
              nackUpdate s0 now m
            else m) := by
        unfold nack_messages
        rw [hfind0]
      rw [hmsgs] at hm'
      obtain ⟨m, hm, hfe⟩ := List.mem_map.mp hm'
      by_cases hc : (decide (m.id ∈ ids) && m.subscriptionId == sid &&
          decide (m.status = .delivered)) = true
      · have heq : m' = nackUpdate s0 now m := by rw [← hfe]; exact if_pos hc
        have hdel : m.status = .delivered := by
          simp only [Bool.and_eq_true, beq_iff_eq, decide_eq_true_eq] at hc
          exact hc.2
        unfold nackUpdate at heq
        by_cases hmax : s0.maxDeliveryAttempts ≤ m.deliveryAttempts
        · rw [if_pos hmax] at heq
          right
          refine ⟨sid, ids, now, rfl, m, hm, ?_, hdel, s0, hfind0, hmax⟩
          rw [heq]
        · rw [if_neg hmax] at heq
          rw [heq] at hdlq
          simp at hdlq
      · have heq : m' = m := by rw [← hfe]; exact if_neg hc
        subst heq
        exact Or.inl ⟨m', hm, rfl, hdlq⟩
  | reprocess sid ids now =>
    left
    have hmsgs : (reprocess_dlq_messages st sid ids now).msgs =
        st.msgs.map (fun m =>
          if m.subscriptionId == sid && decide (m.id ∈ ids) &&
              decide (m.status = .dlq) then
            { m with status := .available, deliveryAttempts := 0, availableAt := now }
          else m) := rfl
    rw [hmsgs] at hm'
    obtain ⟨m, hm, hfe⟩ := List.mem_map.mp hm'
    by_cases hc : (m.subscriptionId == sid && decide (m.id ∈ ids) &&
        decide (m.status = .dlq)) = true
    · have heq : m' = { m with status := .available, deliveryAttempts := 0, availableAt := now } := by
        rw [← hfe]; exact if_pos hc
      rw [heq] at hdlq
      simp at hdlq
    · have heq : m' = m := by rw [← hfe]; exact if_neg hc
      subst heq
      exact ⟨m', hm, rfl, hdlq⟩
  | cleanupStuck sid lockTimeout now =>
    left
    have hmsgs : (cleanup_stuck_messages st sid lockTimeout now).msgs =
        st.msgs.map (fun m =>
          if m.subscriptionId == sid && decide (m.status = .delivered) &&
              (match m.lockedAt with
               | some t => decide (t < now - lockTimeout)
               | none => false) then
            { m with status := .available, lockedAt := none, lockedBy := none }
          else m) := rfl
    rw [hmsgs] at hm'
    obtain ⟨m, hm, hfe⟩ := List.mem_map.mp hm'
    by_cases hc : (m.subscriptionId == sid && decide (m.status = .delivered) &&
        (match m.lockedAt with
         | some t => decide (t < now - lockTimeout)
         | none => false)) = true
    · have heq : m' = { m with status := .available, lockedAt := none, lockedBy := none } := by
        rw [← hfe]; exact if_pos hc
      rw [heq] at hdlq
      simp at hdlq
    · have heq : m' = m := by rw [← hfe]; exact if_neg hc
      subst heq
      exact ⟨m', hm, rfl, hdlq⟩
  | cleanupAcked sid olderThan now =>
    exact Or.inl ⟨m', List.mem_of_mem_filter hm', rfl, hdlq⟩

/-- The empty database state. -/
def stEmpty : DbState := { topics := [], subs := [], msgs := [], nextId := 0 }

/-- C5 (amended): in every state reachable through publish, consume, ack,
nack, DLQ reprocess and acked-GC transitions (the janitor stuck-lock sweep
excluded) from a well-formed state, `delivery_attempts ≤
max_delivery_attempts` for every row; and across any transition whatever
(janitor sweeps included) a row enters `'dlq'` only via a nack of a delivered
row whose attempt count has reached the bound. -/
theorem attempts_bound_reachable (st0 st : DbState) (h0 : coreInv st0)
    (h : ReachableCore st0 st) :
    (∀ m ∈ st.msgs, ∀ s, findSub st m.subscriptionId = some s →
        m.deliveryAttempts ≤ s.maxDeliveryAttempts)
    ∧ (∀ st1 st2 : DbState, Step st1 st2 → ∀ m2 ∈ st2.msgs, m2.status = .dlq →
        (∃ m1 ∈ st1.msgs, m1.id = m2.id ∧ m1.status = .dlq) ∨
        (∃ sid ids now, st2 = nack_messages st1 sid ids now ∧
           ∃ m1 ∈ st1.msgs, m1.id = m2.id ∧ m1.status = .delivered ∧
             ∃ s, findSub st1 sid = some s ∧
               s.maxDeliveryAttempts ≤ m1.deliveryAttempts)) :=
  ⟨(coreInv_reachable h0 h).2.2.1,
   fun _ _ hs m2 hm2 hdlq => dlq_entry hs m2 hm2 hdlq⟩

/-- Witness for C5 (amended): the bound at the empty state, reached by the
empty transition sequence. -/
theorem attempts_bound_reachable_witness :
    (∀ m ∈ stEmpty.msgs, ∀ s, findSub stEmpty m.subscriptionId = some s →
        m.deliveryAttempts ≤ s.maxDeliveryAttempts)
    ∧ (∀ st1 st2 : DbState, Step st1 st2 → ∀ m2 ∈ st2.msgs, m2.status = .dlq →
        (∃ m1 ∈ st1.msgs, m1.id = m2.id ∧ m1.status = .dlq) ∨
        (∃ sid ids now, st2 = nack_messages st1 sid ids now ∧
           ∃ m1 ∈ st1.msgs, m1.id = m2.id ∧ m1.status = .delivered ∧
             ∃ s, findSub st1 sid = some s ∧
               s.maxDeliveryAttempts ≤ m1.deliveryAttempts)) :=
  attempts_bound_reachable stEmpty stEmpty
    ⟨⟨by simp [stEmpty], by simp [stEmpty]⟩,
     by simp [subsOk, stEmpty],
     by simp [attemptsBound, stEmpty],
     by simp [availBelow, stEmpty]⟩
    (ReachableCore.refl stEmpty)

/-- A subscription with `max_delivery_attempts = 1`. -/
def subJanitor : SubscriptionRec :=
  { id := "s", topicId := "t", filter := Json.obj [], maxDeliveryAttempts := 1,
    backoffMinSeconds := 1, backoffMaxSeconds := 1 }

/-- Initial state of the janitor counterexample run. -/
def stJ0 : DbState := { topics := ["t"], subs := [subJanitor], msgs := [], nextId := 0 }

/-- After publishing one message at time 0. -/
def stJ1 : DbState := (publish_messages stJ0 "t" [Json.obj []] 0).1

/-- After consuming it at time 0 (attempts 1 = the bound). -/
def stJ2 : DbState := (consume_messages stJ1 "s" "c1" 1 0).1

/-- After the stuck-lock sweep at time 10 (attempts stay 1, row available). -/
def stJ3 : DbState := cleanup_stuck_messages stJ2 "s" 0 10

/-- After consuming again at time 10: attempts 2 > max_delivery_attempts 1. -/
def stJ4 : DbState := (consume_messages stJ3 "s" "c1" 1 10).1

/-- C5 (counterexample): from a well-formed state, the run
publish → consume → janitor stuck-unlock → consume is reachable and ends
with a row whose `delivery_attempts` (2) exceeds its subscription's
`max_delivery_attempts` (1), so the bound does not hold at every reachable
state when janitor sweeps are among the transitions. -/
theorem attempts_exceed_bound_via_janitor :
    Reachable stJ0 stJ4
    ∧ coreInv stJ0
    ∧ ∃ m ∈ stJ4.msgs, findSub stJ4 m.subscriptionId = some subJanitor ∧
        subJanitor.maxDeliveryAttempts < m.deliveryAttempts := by
  refine ⟨?_, ?_, ?_⟩
  · exact Reachable.step _ _ _ (Reachable.step _ _ _ (Reachable.step _ _ _
      (Reachable.step _ _ _ (Reachable.refl stJ0)
        (Step.publish stJ0 "t" [Json.obj []] 0))
      (Step.consume stJ1 "s" "c1" 1 0))
      (Step.cleanupStuck stJ2 "s" 0 10))
      (Step.consume stJ3 "s" "c1" 1 10)
  · exact ⟨⟨by simp [stJ0], by simp [stJ0]⟩,
      by simp [subsOk, stJ0, subJanitor],
      by simp [attemptsBound, stJ0],
      by simp [availBelow, stJ0]⟩
  · decide

/-! ### C6: the lock and acked-timestamp invariants -/

/-- Spec invariants 1 and 2: `status = 'delivered'` iff both lock columns are
set, and `status = 'acked'` iff `acked_at` is set. -/
def lockAckInv (st : DbState) : Prop :=
  ∀ m ∈ st.msgs,
    ((m.status = .delivered) ↔ (m.lockedAt ≠ none ∧ m.lockedBy ≠ none)) ∧
    ((m.status = .acked) ↔ m.ackedAt ≠ none)

/-- C6: every operation (insert, consume, ack, nack, DLQ reprocess, janitor
unlock, acked-GC) preserves the invariant that a row is `'delivered'` iff its
lock columns are set and `'acked'` iff `acked_at` is set. -/
theorem lock_ack_inv_step (st st' : DbState) (hw : idsWf st)
    (hinv : lockAckInv st) (h : Step st st') : lockAckInv st' := by
  have hackedNone : ∀ m ∈ st.msgs, m.status ≠ .acked → m.ackedAt = none := by
    intro m hm hne
    by_contra hne2
    exact hne ((hinv m hm).2.mpr hne2)
  have hlockNone : ∀ m ∈ st.msgs, m.status ≠ .delivered →
      ¬(m.lockedAt ≠ none ∧ m.lockedBy ≠ none) := by
    intro m hm hne hl
    exact hne ((hinv m hm).1.mpr hl)
  cases h with
  | publish tid messages now =>
    intro m' hm'
    rw [publish_messages_msgs] at hm'
    rcases List.mem_append.mp hm' with h1 | h1
    · exact hinv m' h1
    · obtain ⟨hst, _, _, hla, hlb, hak, _, _⟩ := mem_publishRows h1
      constructor
      · rw [hst, hla, hlb]
        simp
      · rw [hst, hak]
        simp
  | consume sid c k now =>
    have hmsgs : (consume_messages st sid c k now).1.msgs =
        st.msgs.map (fun m =>
          if m.id ∈ (consumeSelect st sid now k).map (fun x => x.id) then
            consumeUpdate c now m
          else m) := rfl
    intro m' hm'
    rw [hmsgs] at hm'
    obtain ⟨m, hm, hfe⟩ := List.mem_map.mp hm'
    by_cases hc : m.id ∈ (consumeSelect st sid now k).map (fun x => x.id)
    · have heq : m' = consumeUpdate c now m := by rw [← hfe]; exact if_pos hc
      obtain ⟨msel, hmsel, hident⟩ := List.mem_map.mp hc
      obtain ⟨hmselmem, _, hav', _⟩ := mem_consumeSelect hmsel
      have hms : msel = m := List.inj_on_of_nodup_map hw.2 hmselmem hm hident
      subst hms
      have hnone : msel.ackedAt = none :=
        hackedNone msel hmselmem (by rw [hav']; simp)
      rw [heq]
      constructor
      · simp [consumeUpdate]
      · simp [consumeUpdate, hnone]
    · have heq : m' = m := by rw [← hfe]; exact if_neg hc
      subst heq
      exact hinv m' hm
  | ack sid ids now =>
    have hmsgs : (ack_messages st sid ids now).msgs =
        st.msgs.map (fun m =>
          if m.subscriptionId == sid && decide (m.id ∈ ids) &&
              decide (m.status = .delivered) then
            { m with status := .acked, ackedAt := some now, lockedAt := none, lockedBy := none }
          else m) := rfl
    intro m' hm'
    rw [hmsgs] at hm'
    obtain ⟨m, hm, hfe⟩ := List.mem_map.mp hm'
    by_cases hc : (m.subscriptionId == sid && decide (m.id ∈ ids) &&
        decide (m.status = .delivered)) = true
    · have heq : m' = { m with status := .acked, ackedAt := some now, lockedAt := none, lockedBy := none } := by
        rw [← hfe]; exact if_pos hc
      rw [heq]
      constructor <;> simp
    · have heq : m' = m := by rw [← hfe]; exact if_neg hc
      subst heq
      exact hinv m' hm
  | nack sid ids now =>
    cases hfind0 : findSub st sid with
    | none =>
      have hst : nack_messages st sid ids now = st := by
        unfold nack_messages
        rw [hfind0]
      rw [hst]
      exact hinv
    | some s0 =>
      have hmsgs : (nack_messages st sid ids now).msgs =
          st.msgs.map (fun m =>
            if decide (m.id ∈ ids) && m.subscriptionId == sid &&
                decide (m.status = .delivered) then
              nackUpdate s0 now m
            else m) := by
        unfold nack_messages
        rw [hfind0]
      intro m' hm'
      rw [hmsgs] at hm'
      obtain ⟨m, hm, hfe⟩ := List.mem_map.mp hm'
      by_cases hc : (decide (m.id ∈ ids) && m.subscriptionId == sid &&
          decide (m.status = .delivered)) = true
      · have heq : m' = nackUpdate s0 now m := by rw [← hfe]; exact if_pos hc
        have hdel : m.status = .delivered := by
          simp only [Bool.and_eq_true, beq_iff_eq, decide_eq_true_eq] at hc
          exact hc.2
        have hnone : m.ackedAt = none :=
          hackedNone m hm (by rw [hdel]; simp)
        rw [heq]
        unfold nackUpdate
        split
        · constructor <;> simp [hnone]
        · constructor <;> simp [hnone]
      · have heq : m' = m := by rw [← hfe]; exact if_neg hc
        subst heq
        exact hinv m' hm
  | reprocess sid ids now =>
    have hmsgs : (reprocess_dlq_messages st sid ids now).msgs =
        st.msgs.map (fun m =>
          if m.subscriptionId == sid && decide (m.id ∈ ids) &&
              decide (m.status = .dlq) then
            { m with status := .available, deliveryAttempts := 0, availableAt := now }
          else m) := rfl
    intro m' hm'
    rw [hmsgs] at hm'
    obtain ⟨m, hm, hfe⟩ := List.mem_map.mp hm'
    by_cases hc : (m.subscriptionId == sid && decide (m.id ∈ ids) &&
        decide (m.status = .dlq)) = true
    · have heq : m' = { m with status := .available, deliveryAttempts := 0, availableAt := now } := by
        rw [← hfe]; exact if_pos hc
      have hdlq : m.status = .dlq := by
        simp only [Bool.and_eq_true, beq_iff_eq, decide_eq_true_eq] at hc
        exact hc.2
      have hnone : m.ackedAt = none :=
        hackedNone m hm (by rw [hdlq]; simp)
      have hnl : ¬(m.lockedAt ≠ none ∧ m.lockedBy ≠ none) :=
        hlockNone m hm (by rw [hdlq]; simp)
      rw [heq]
      constructor
      · refine iff_of_false ?_ hnl
        intro habs
        simp at habs
      · simp [hnone]
    · have heq : m' = m := by rw [← hfe]; exact if_neg hc
      subst heq
      exact hinv m' hm
  | cleanupStuck sid lockTimeout now =>
    have hmsgs : (cleanup_stuck_messages st sid lockTimeout now).msgs =
        st.msgs.map (fun m =>
          if m.subscriptionId == sid && decide (m.status = .delivered) &&
              (match m.lockedAt with
               | some t => decide (t < now - lockTimeout)
               | none => false) then
            { m with status := .available, lockedAt := none, lockedBy := none }
          else m) := rfl
    intro m' hm'
    rw [hmsgs] at hm'
    obtain ⟨m, hm, hfe⟩ := List.mem_map.mp hm'
    by_cases hc : (m.subscriptionId == sid && decide (m.status = .delivered) &&
        (match m.lockedAt with
         | some t => decide (t < now - lockTimeout)
         | none => false)) = true
    · have heq : m' = { m with status := .available, lockedAt := none, lockedBy := none } := by
        rw [← hfe]; exact if_pos hc
      have hdel : m.status = .delivered := by
        simp only [Bool.and_eq_true, beq_iff_eq, decide_eq_true_eq] at hc
        exact hc.1.2
      have hnone : m.ackedAt = none :=
        hackedNone m hm (by rw [hdel]; simp)
      rw [heq]
      constructor <;> simp [hnone]
    · have heq : m' = m := by rw [← hfe]; exact if_neg hc
      subst heq
      exact hinv m' hm
  | cleanupAcked sid olderThan now =>
    intro m' hm'
    exact hinv m' (List.mem_of_mem_filter hm')

/-- Witness for C6: the invariant carried across a concrete consume step. -/
theorem lock_ack_inv_step_witness :
    lockAckInv (consume_messages stConsume "s" "c1" 1 0).1 :=
  lock_ack_inv_step stConsume (consume_messages stConsume "s" "c1" 1 0).1
    (by unfold idsWf; decide) (by unfold lockAckInv; decide)
    (Step.consume stConsume "s" "c1" 1 0)

/-! ### C7 / C9: the janitor-unlock and DLQ-listing calls do not match the
SQL functions migration 001 defines -/

/-- A stuck delivered row of subscription `"s1"`. -/
def rowStuck1 : MessageRow :=
  { id := 0, subscriptionId := "s1", payload := Json.obj [], status := .delivered,
    deliveryAttempts := 1, availableAt := 0, lockedAt := some 0,
    lockedBy := some "c1", createdAt := 0, ackedAt := none }

/-- A stuck delivered row of subscription `"s2"`. -/
def rowStuck2 : MessageRow :=
  { id := 1, subscriptionId := "s2", payload := Json.obj [], status := .delivered,
    deliveryAttempts := 1, availableAt := 0, lockedAt := some 0,
    lockedBy := some "c1", createdAt := 0, ackedAt := none }

/-- A state with stuck delivered rows in two different subscriptions. -/
def stStuck : DbState :=
  { topics := ["t"], subs := [], msgs := [rowStuck1, rowStuck2], nextId := 2 }

/-- C7: the service layer invokes `cleanup_stuck_messages` with one argument
(just the interval) but migration 001 only defines
`cleanup_stuck_messages(text, interval)`, so the call cannot resolve; and the
function that is defined is per-subscription — invoked for `"s1"` it unlocks
the stuck row of `"s1"` (leaving `delivery_attempts` and `available_at`
untouched) while the equally stuck row of `"s2"` stays `'delivered'`,
contradicting "across all subscriptions". -/
theorem cleanup_stuck_call_mismatch :
    serviceCleanupStuckCall ∉ migrationSqlFunctions
    ∧ (cleanup_stuck_messages stStuck "s1" 5 100).msgs.map
        (fun m => (m.subscriptionId, m.status, m.lockedAt, m.lockedBy)) =
      [("s1", MsgStatus.available, none, none),
       ("s2", MsgStatus.delivered, some 0, some "c1")]
    ∧ (cleanup_stuck_messages stStuck "s1" 5 100).msgs.map
        (fun m => (m.deliveryAttempts, m.availableAt)) =
      stStuck.msgs.map (fun m => (m.deliveryAttempts, m.availableAt)) := by decide

/-- A `'dlq'` row created at time 0. -/
def rowDlq1 : MessageRow :=
  { id := 0, subscriptionId := "s", payload := Json.obj [], status := .dlq,
    deliveryAttempts := 1, availableAt := 0, lockedAt := none, lockedBy := none,
    createdAt := 0, ackedAt := none }

/-- A `'dlq'` row created at time 5. -/
def rowDlq2 : MessageRow :=
  { id := 1, subscriptionId := "s", payload := Json.obj [], status := .dlq,
    deliveryAttempts := 1, availableAt := 0, lockedAt := none, lockedBy := none,
    createdAt := 5, ackedAt := none }

/-- A state with two DLQ rows, stored out of creation order. -/
def stDlq : DbState :=
  { topics := ["t"], subs := [], msgs := [rowDlq2, rowDlq1], nextId := 2 }

/-- C9: the service layer invokes `list_dlq_messages` with three arguments
`(subscription_id, offset, limit)` but migration 001 only defines
`list_dlq_messages(text, integer)`, so the call cannot resolve; the function
that is defined returns the DLQ rows ordered by `created_at` ascending,
limited, with no offset parameter to skip rows. -/
theorem list_dlq_call_mismatch :
    serviceListDlqCall ∉ migrationSqlFunctions
    ∧ (list_dlq_messages stDlq "s" 1).map (fun m => m.id) = [0]
    ∧ (list_dlq_messages stDlq "s" 10).map (fun m => m.id) = [0, 1] := by decide

/-! ### C8: publish on a missing topic -/

/-- C8: publishing to a non-existent topic fails with NotFound (inserting
nothing — no successor state is produced), and a successful publish appends
exactly its fan-out rows, all `'available'`, in one step. -/
theorem publish_endpoint_not_found_spec (st : DbState) (topicId : String)
    (messages : List Json) (now : Int) :
    (topicId ∉ st.topics →
      publish_messages_endpoint st topicId messages now = .error .notFound)
    ∧ (∀ st' n, publish_messages_endpoint st topicId messages now = .ok (st', n) →
        topicId ∈ st.topics ∧ ∃ rows, st'.msgs = st.msgs ++ rows ∧
          rows.length = n ∧ ∀ r ∈ rows, r.status = .available) := by
  constructor
  · intro hnot
    unfold publish_messages_endpoint
    rw [if_neg hnot]
  · intro st' n hok
    unfold publish_messages_endpoint at hok
    by_cases ht : topicId ∈ st.topics
    · rw [if_pos ht] at hok
      have hpair := Except.ok.inj hok
      have h1 : st' = (publish_messages st topicId messages now).1 :=
        (congrArg Prod.fst hpair).symm
      have h2 : n = (publish_messages st topicId messages now).2 :=
        (congrArg Prod.snd hpair).symm
      subst h1
      subst h2
      exact ⟨ht, publishRows st.nextId now (eligiblePairs st topicId messages),
        publish_messages_msgs st topicId messages now, rfl,
        fun r hr => (mem_publishRows hr).1⟩
    · rw [if_neg ht] at hok
      cases hok

/-- Witness for C8: a publish against the empty state (no topics) fails with
NotFound. -/
theorem publish_endpoint_not_found_witness :
    publish_messages_endpoint stEmpty "t" [] 0 = .error .notFound :=
  (publish_endpoint_not_found_spec stEmpty "t" [] 0).1 (by decide)

/-! ### C10: subscription-creation filter sanitization -/

/-- C10 (counterexample): the carriage return (code point 13) is a control
character other than newline and tab, yet `sanitize_string` leaves it in
place — the removal regex skips `\x0D`. -/
theorem carriage_return_not_removed :
    (Char.ofNat 13).toNat < 32
    ∧ Char.ofNat 13 ≠ Char.ofNat 10
    ∧ Char.ofNat 13 ≠ Char.ofNat 9
    ∧ sanitize_string (String.mk [Char.ofNat 13]) = String.mk [Char.ofNat 13] := by
  decide

instance : DecidableEq (Except ApiError DbState)
  | .ok a, .ok b =>
    if h : a = b then isTrue (by rw [h])
    else isFalse (by intro hc; cases hc; exact h rfl)
  | .error a, .error b =>
    if h : a = b then isTrue (by rw [h])
    else isFalse (by intro hc; cases hc; exact h rfl)
  | .ok _, .error _ => isFalse (by intro h; cases h)
  | .error _, .ok _ => isFalse (by intro h; cases h)

/-- A state with one topic and no subscriptions, for the creation example. -/
def stEscape : DbState := { topics := ["t"], subs := [], msgs := [], nextId := 0 }

/-- The subscription row stored for the raw filter
`\x7b"f": ["a&b"]\x7d`: the value is HTML-escaped. -/
def subEscaped : SubscriptionRec :=
  { id := "s", topicId := "t",
    filter := Json.obj [("f", Json.arr [Json.str "a&amp;b"])],
    maxDeliveryAttempts := 5, backoffMinSeconds := 5, backoffMaxSeconds := 300 }

/-- C10 (amended): subscription creation rewrites every string key and string
value of the filter — control characters except newline, tab and carriage
return are removed, and the string is HTML-entity escaped ('<' becomes
'&lt;', '&' becomes '&amp;') — so for some inputs the stored filter differs
from the supplied one, and matching at publish time uses the escaped
strings. -/
theorem sanitize_filter_spec :
    (∀ c : Char, c.toNat < 32 ∨ c.toNat = 127 → c.toNat ≠ 9 → c.toNat ≠ 10 →
        c.toNat ≠ 13 → sanitize_string (String.mk [c]) = "")
    ∧ sanitize_string "\t" = "\t" ∧ sanitize_string "\n" = "\n"
    ∧ sanitize_string "\r" = "\r"
    ∧ sanitize_string "<" = "&lt;" ∧ sanitize_string "&" = "&amp;"
    ∧ sanitize_filter (Json.obj [("a<", Json.arr [Json.str "b&", Json.num 3])]) =
        Json.obj [("a&lt;", Json.arr [Json.str "b&amp;", Json.num 3])]
    ∧ Json.obj [("a&lt;", Json.arr [Json.str "b&amp;", Json.num 3])] ≠
        Json.obj [("a<", Json.arr [Json.str "b&", Json.num 3])]
    ∧ create_subscription stEscape "s" "t"
        (Json.obj [("f", Json.arr [Json.str "a&b"])]) 5 5 300 =
        Except.ok { stEscape with subs := [subEscaped] }
    ∧ matchesFilter subEscaped.filter (Json.obj [("f", Json.str "a&amp;b")]) = true
    ∧ matchesFilter subEscaped.filter (Json.obj [("f", Json.str "a&b")]) = false := by
  refine ⟨?_, by decide⟩
  intro c h1 h2 h3 h4
  have hb : isRemovedControlChar c = true := by
    simp only [isRemovedControlChar, Bool.or_eq_true, Bool.and_eq_true,
      decide_eq_true_eq, beq_iff_eq]
    omega
  show htmlEscape (removeControlChars (String.mk [c])) = ""
  have h5 : removeControlChars (String.mk [c]) = String.mk [] := by
    show String.mk ([c].filter (fun x => !(isRemovedControlChar x))) = String.mk []
    simp [List.filter, hb]
  rw [h5]
  decide

/-- Witness for C10 (amended): the null byte is removed by sanitization. -/
theorem sanitize_filter_spec_witness :
    sanitize_string (String.mk [Char.ofNat 0]) = "" :=
  sanitize_filter_spec.1 (Char.ofNat 0) (Or.inl (by decide)) (by decide)
    (by decide) (by decide)

end FastPubSub
